import Mathlib

/-!
Verification of the Nextion TFT uploader (`src/Nextion/nextion-upload.py`).

The program is a single linear serial protocol flow: baud-rate negotiation
(`getBaudrate`), upload-speed switching (`setDownloadBaudrate`), chunked file
transfer (`transferFile`), and an orchestrator (`upload`, plus the
`__main__` block modelled as `mainFlow`).

Shallow embedding conventions:
* byte strings are `List Nat` (each entry a byte value 0..255);
* the serial connection is modelled by an explicit trace of `Event`s
  (baud/timeout changes, writes, reads, sleeps) plus an oracle giving the
  bytes each `read` call returns;
* console output is abstracted to structured `Msg` events, one constructor
  per `print` site in the source (ANSI colouring and column padding are
  presentation only and are not modelled);
* Python exceptions (tuple-unpack `ValueError`, `IndexError`, `int()`
  `ValueError`) are modelled with `Except Err`;
* `time.sleep` and timeout values are exact rationals.
-/

deriving instance DecidableEq for Except

namespace Nextion

/-- Byte strings (`bytes` in the source): lists of byte values. -/
abbrev Bytes := List Nat

/-- The frame delimiter `e = b"\xff\xff\xff"` (line 91 of the source). -/
def delim : Bytes := [0xff, 0xff, 0xff]

/-- The ASCII bytes of `b'connect'` (line 98). -/
def connectCmd : Bytes := [0x63, 0x6f, 0x6e, 0x6e, 0x65, 0x63, 0x74]

/-- The ASCII bytes of `b'comok'` (line 101). -/
def comokBytes : Bytes := [0x63, 0x6f, 0x6d, 0x6f, 0x6b]

/-- The acknowledgement byte `b"\x05"`. -/
def ackByte : Nat := 0x05

/-- Python's substring test `needle in hay` on byte strings: some contiguous
slice of `hay` equals `needle`. -/
def containsBytes (hay needle : Bytes) : Bool :=
  (List.range (hay.length + 1)).any fun i =>
    (hay.drop i).take needle.length == needle

/-- Python's `bytes.strip(b"\xff\x00")` (line 104): remove leading and
trailing bytes belonging to the set \x7b0xff, 0x00\x7d. -/
def stripBytes (r : Bytes) : Bytes :=
  ((r.dropWhile fun b => b == 0xff || b == 0x00).reverse.dropWhile
    fun b => b == 0xff || b == 0x00).reverse

/-- Python's `bytes.split(sep)` for a single-byte separator (lines 104, 106
and 107): split on every occurrence, an empty input giving `[[]]`. -/
def splitOnByte (sep : Nat) : Bytes → List Bytes
  | [] => [[]]
  | b :: rest =>
    if b == sep then [] :: splitOnByte sep rest
    else
      match splitOnByte sep rest with
      | [] => [[b]]
      | g :: gs => (b :: g) :: gs

/-- The comma byte, separator of the handshake response fields. -/
def commaByte : Nat := 0x2c

/-- The space byte, separator inside the status field. -/
def spaceByte : Nat := 0x20

/-- Continuation byte test for UTF-8 (second to fourth bytes of a
multi-byte sequence): `0x80 ≤ b ≤ 0xBF`. -/
def isCont (b : Nat) : Bool := 0x80 ≤ b && b ≤ 0xbf

/-- Value carried by a UTF-8 continuation byte. -/
def contVal (b : Nat) : Nat := b % 64

/-- Admissible second byte of a three-byte UTF-8 sequence (the `0xE0` and
`0xED` rows of the standard table exclude overlong forms and surrogates). -/
def validSecond3 (b b2 : Nat) : Bool :=
  if b == 0xe0 then 0xa0 ≤ b2 && b2 ≤ 0xbf
  else if b == 0xed then 0x80 ≤ b2 && b2 ≤ 0x9f
  else isCont b2

/-- Admissible second byte of a four-byte UTF-8 sequence (the `0xF0` and
`0xF4` rows exclude overlong forms and values beyond `0x10FFFF`). -/
def validSecond4 (b b2 : Nat) : Bool :=
  if b == 0xf0 then 0x90 ≤ b2 && b2 ≤ 0xbf
  else if b == 0xf4 then 0x80 ≤ b2 && b2 ≤ 0x8f
  else isCont b2

/-- Fuelled UTF-8 decoder with Python's `errors='ignore'` policy: a valid
sequence yields its code point, and on an invalid or truncated sequence the
leading byte is skipped and decoding resumes (which produces the same output
as CPython's maximal-subpart skipping, since skipped continuation bytes can
never start a character). The fuel is an upper bound on the number of bytes;
each step consumes at least one byte. -/
def utf8DecodeAux : Nat → Bytes → List Char
  | 0, _ => []
  | _, [] => []
  | fuel + 1, b :: rest =>
    if b ≤ 0x7f then Char.ofNat b :: utf8DecodeAux fuel rest
    else if 0xc2 ≤ b && b ≤ 0xdf then
      match rest with
      | b2 :: rest2 =>
        if isCont b2 then
          Char.ofNat ((b - 0xc0) * 64 + contVal b2) :: utf8DecodeAux fuel rest2
        else utf8DecodeAux fuel rest
      | [] => []
    else if 0xe0 ≤ b && b ≤ 0xef then
      match rest with
      | b2 :: b3 :: rest3 =>
        if validSecond3 b b2 && isCont b3 then
          Char.ofNat ((b - 0xe0) * 4096 + contVal b2 * 64 + contVal b3) ::
            utf8DecodeAux fuel rest3
        else utf8DecodeAux fuel rest
      | _ => utf8DecodeAux fuel rest
    else if 0xf0 ≤ b && b ≤ 0xf4 then
      match rest with
      | b2 :: b3 :: b4 :: rest4 =>
        if validSecond4 b b2 && isCont b3 && isCont b4 then
          Char.ofNat ((b - 0xf0) * 262144 + contVal b2 * 4096 +
              contVal b3 * 64 + contVal b4) :: utf8DecodeAux fuel rest4
        else utf8DecodeAux fuel rest
      | _ => utf8DecodeAux fuel rest
    else utf8DecodeAux fuel rest

/-- Python's `bytes.decode('utf-8', errors='ignore')` (lines 106 and
108-112): total, never raising, dropping undecodable bytes. -/
def decodeIgnore (bs : Bytes) : String :=
  String.mk (utf8DecodeAux bs.length bs)

/-- UTF-8 encoding of one character. -/
def charUtf8 (c : Char) : Bytes :=
  let n := c.toNat
  if n ≤ 0x7f then [n]
  else if n ≤ 0x7ff then [0xc0 + n / 64, 0x80 + n % 64]
  else if n ≤ 0xffff then
    [0xe0 + n / 4096, 0x80 + (n / 64) % 64, 0x80 + n % 64]
  else
    [0xf0 + n / 262144, 0x80 + (n / 4096) % 64, 0x80 + (n / 64) % 64,
      0x80 + n % 64]

/-- Python's `str.encode()` (UTF-8), used at line 126 for the model check
and at line 134 for the `whmi-wri` command. -/
def encodeUtf8 (s : String) : Bytes :=
  s.data.foldr (fun c acc => charUtf8 c ++ acc) []

/-- Errors the modelled code can raise. -/
inductive Err where
  /-- `ValueError` from unpacking the split response into seven names
  (line 105) when the field count differs from seven. -/
  | unpackError
  /-- `IndexError` from `status.split(b' ')[1]` (line 107) when the status
  field holds no space. -/
  | indexError
  /-- `ValueError` from `int(flash)` (line 123) on a non-numeric string. -/
  | intParseError (s : String)
  deriving DecidableEq

/-- Python whitespace accepted (and stripped) by `int()`. -/
def isPySpace (c : Char) : Bool :=
  c == ' ' || c == '\t' || c == '\n' || c == '\r' ||
    c == Char.ofNat 11 || c == Char.ofNat 12

/-- Decimal value of a digit list. -/
def digitsVal (ds : List Char) : Int :=
  ds.foldl (fun acc c => acc * 10 + (Int.ofNat (c.toNat - 48))) 0

/-- Python's `int(s)` on a decimal string (line 123): surrounding
whitespace and an optional sign are accepted, otherwise the string must be
a nonempty run of digits; anything else raises `ValueError`. (Underscore
digit grouping, accepted by CPython, is not modelled; no input of interest
uses it.) -/
def pyInt (s : String) : Except Err Int :=
  let cs := ((s.data.dropWhile isPySpace).reverse.dropWhile isPySpace).reverse
  let signed : Int × List Char :=
    match cs with
    | '-' :: rest => (-1, rest)
    | '+' :: rest => (1, rest)
    | _ => (1, cs)
  if signed.2 ≠ [] ∧ signed.2.all (fun c => c.isDigit) then
    .ok (signed.1 * digitsVal signed.2)
  else .error (.intParseError s)

/-- The device-identification record parsed from the handshake response
(lines 104-112). `modelBytes` keeps the raw bytes of the model field, which
line 126 compares against `checkModel.encode()` before any decoding. -/
structure DeviceInfo where
  status : String
  touchscreen : String
  modelBytes : Bytes
  model : String
  fwversion : String
  mcucode : String
  serialNum : String
  flash : String
  deriving DecidableEq

/-- Response-record parsing (lines 104-112): strip delimiter and null
bytes, split on commas, unpack exactly seven fields (else `ValueError`),
split the first field on spaces and index entry 1 (else `IndexError`),
decode the text fields permissively. -/
def parseResponse (r : Bytes) : Except Err DeviceInfo :=
  let parts := splitOnByte commaByte (stripBytes r)
  if parts.length = 7 then
    let status := parts.headD []
    let sp := splitOnByte spaceByte status
    if 2 ≤ sp.length then
      .ok
        { status := decodeIgnore (sp.headD [])
          touchscreen := if sp.getD 1 [] == [0x31] then "yes" else "no"
          modelBytes := parts.getD 2 []
          model := decodeIgnore (parts.getD 2 [])
          fwversion := decodeIgnore (parts.getD 3 [])
          mcucode := decodeIgnore (parts.getD 4 [])
          serialNum := decodeIgnore (parts.getD 5 [])
          flash := decodeIgnore (parts.getD 6 []) }
    else .error .indexError
  else .error .unpackError

/-- The flash-size validation of line 123, `if fSize and fSize > int(flash)`:
Python's `and` short-circuits, so with `fSize` absent or zero (falsy) the
comparison — and in particular `int(flash)` — is never evaluated. Returns
whether the "file too big" branch is taken. -/
def flashCheck (fSize : Option Nat) (flash : String) : Except Err Bool :=
  match fSize with
  | none => .ok false
  | some n =>
    if n = 0 then .ok false
    else
      match pyInt flash with
      | .ok f => .ok (decide ((n : Int) > f))
      | .error err => .error err

/-- The model validation of line 126, `if checkModel and checkModel.encode()
not in model`: with `checkModel` absent or empty (falsy) the containment
test is skipped. Returns whether the "wrong display" branch is taken. -/
def modelCheckFails (checkModel : Option String) (modelBytes : Bytes) : Bool :=
  match checkModel with
  | none => false
  | some m => if m == "" then false else ! containsBytes modelBytes (encodeUtf8 m)

/-- Structured console messages, one constructor per `print` site of the
source (formatting, colouring and column padding are presentation only). -/
inductive Msg where
  /-- `print_trying` (line 102): candidate speed and probe outcome. -/
  | trying (speed : Nat) (success : Bool)
  /-- `print_connected_speed` (line 114). -/
  | connectedSpeed (speed : Nat)
  /-- `print_status` (line 115). -/
  | statusLine (s : String)
  /-- `print_basic("Touchscreen", ...)` (line 116). -/
  | touchscreenLine (s : String)
  /-- `print_success("Model", ...)` (line 117). -/
  | modelLine (s : String)
  /-- `print_basic("Firmware version", ...)` (line 118). -/
  | firmwareLine (s : String)
  /-- `print_basic("MCU code", ...)` (line 119). -/
  | mcuLine (s : String)
  /-- `print_basic("Serial", ...)` (line 120). -/
  | serialLine (s : String)
  /-- `print_basic("Flash size", ...)` (line 121). -/
  | flashLine (s : String)
  /-- `"File too big!"` (line 124). -/
  | fileTooBig
  /-- `"Wrong Display!"` (line 127). -/
  | wrongDisplay
  /-- `print_success("Upload Speed", ...)` (line 140). -/
  | uploadSpeedOk (b : Nat)
  /-- `print_aligned("Upload Speed", ..., "✗", RED)` (line 143). -/
  | uploadSpeedFail (b : Nat)
  /-- the progress line (line 156), carrying bytes sent so far and the
  total file size from which the percentage is computed. -/
  | progress (sent total : Nat)
  /-- `"Could not find baudrate"` (line 170). -/
  | couldNotFindBaudrate
  /-- `"Could not set upload speed"` (line 174). -/
  | couldNotSetUploadSpeed
  /-- `"Transfer failed!"` (line 178). -/
  | transferFailed
  /-- `"File transferred successfully"` (line 181). -/
  | transferredOk
  /-- the usage text (line 186). -/
  | usage
  /-- `"Could not open serial device ..."` (line 192). -/
  | couldNotOpenSerial (dev : String)
  /-- `"Invalid model name: ..."` (line 203). -/
  | invalidModelName (s : String)
  deriving DecidableEq

/-- Observable actions on the serial connection and console. -/
inductive Event where
  /-- `serial.Serial(dev, 9600, timeout=5)` (line 190): the device is
  opened and configured. -/
  | openSerial (dev : String) (baud : Nat) (timeoutSecs : ℚ)
  /-- assignment to `ser.baudrate`. -/
  | setBaud (b : Nat)
  /-- assignment to `ser.timeout` (seconds). -/
  | setTimeout (t : ℚ)
  /-- `ser.write(bs)`. -/
  | write (bs : Bytes)
  /-- `ser.read(n)` together with the bytes it returned. -/
  | read (n : Nat) (result : Bytes)
  /-- `time.sleep(t)`. -/
  | sleep (t : ℚ)
  /-- console output. -/
  | msg (m : Msg)
  deriving DecidableEq

/-- The events of one negotiation probe at candidate rate `b` (lines
95-102): set the baud rate, set the timeout to `3000/b + 0.2` seconds,
write delimiter / `connect` / delimiter, read up to 128 bytes, report the
outcome. -/
def probeEvs (b : Nat) (resp : Bytes) : List Event :=
  [.setBaud b, .setTimeout ((3000 : ℚ) / (b : ℚ) + 1 / 5), .write delim,
    .write connectCmd, .write delim, .read 128 resp,
    .msg (.trying b (containsBytes resp comokBytes))]

/-- The post-handshake part of a successful probe (lines 104-129): parse
the response record, print the device information, then run the flash-size
and model validations in that order. Returns the events emitted and the
value `getBaudrate` returns (or the exception raised). -/
def handleSuccess (r : Bytes) (baud : Nat) (fSize : Option Nat)
    (checkModel : Option String) : List Event × Except Err Bool :=
  match parseResponse r with
  | .error err => ([], .error err)
  | .ok info =>
    let printEvs : List Event :=
      [.msg (.connectedSpeed baud), .msg (.statusLine info.status),
        .msg (.touchscreenLine info.touchscreen), .msg (.modelLine info.model),
        .msg (.firmwareLine info.fwversion), .msg (.mcuLine info.mcucode),
        .msg (.serialLine info.serialNum), .msg (.flashLine info.flash)]
    match flashCheck fSize info.flash with
    | .error err => (printEvs, .error err)
    | .ok true => (printEvs ++ [.msg .fileTooBig], .ok false)
    | .ok false =>
      if modelCheckFails checkModel info.modelBytes then
        (printEvs ++ [.msg .wrongDisplay], .ok false)
      else (printEvs, .ok true)

/-- The response a probe obtains from the read oracle `devs`: the bytes the
device supplies for the next `ser.read(128)`, truncated to 128. -/
def headResp (devs : List Bytes) : Bytes :=
  ((devs.head?).getD []).take 128

/-- The negotiation loop of `getBaudrate` (lines 94-130) over a list of
remaining candidate rates, consuming one oracle entry per probe: probe the
candidate, and on a response containing `comok` parse and validate it,
otherwise move to the next candidate. -/
def getBaudrateAux (fSize : Option Nat) (checkModel : Option String) :
    List Nat → List Bytes → List Event × Except Err Bool
  | [], _ => ([], .ok false)
  | b :: bs, devs =>
    let resp := headResp devs
    if containsBytes resp comokBytes then
      (probeEvs b resp ++ (handleSuccess resp b fSize checkModel).1,
        (handleSuccess resp b fSize checkModel).2)
    else
      (probeEvs b resp ++ (getBaudrateAux fSize checkModel bs devs.tail).1,
        (getBaudrateAux fSize checkModel bs devs.tail).2)

/-- The candidate baud rates of line 94, in source order. -/
def baudCandidates : List Nat := [115200, 57600, 38400, 19200, 9600]

/-- `getBaudrate(ser, fSize, checkModel)` (lines 93-130), with the serial
device abstracted to the oracle `devs` of successive read results. -/
def getBaudrate (devs : List Bytes) (fSize : Option Nat)
    (checkModel : Option String) : List Event × Except Err Bool :=
  getBaudrateAux fSize checkModel baudCandidates devs

/-- `setDownloadBaudrate(ser, fSize, baudrate)` (lines 132-144): write an
empty byte string, write the `whmi-wri` command and delimiter (still at the
negotiated rate), sleep 50 ms, switch the baud rate, set a 0.5 s timeout,
read one byte, succeed exactly when it is the ACK byte. `ackRead` is the
oracle for the single `ser.read(1)`. -/
def setDownloadBaudrate (ackRead : Bytes) (fSize : Nat) (baudrate : Nat) :
    List Event × Bool :=
  let r := ackRead.take 1
  ([.write [],
    .write (encodeUtf8 ("whmi-wri " ++ toString fSize ++ "," ++
      toString baudrate ++ ",0") ++ delim),
    .sleep (1 / 20), .setBaud baudrate, .setTimeout (1 / 2), .read 1 r] ++
    (if containsBytes r [ackByte] then [.msg (.uploadSpeedOk baudrate)]
     else [.msg (.uploadSpeedFail baudrate)]),
   containsBytes r [ackByte])

/-- Fuelled 4096-byte chunking of the file, mirroring the repeated
`hmif.read(4096)` of lines 150-151; the fuel (instantiated with the byte
count) bounds the number of chunks, each of which consumes at least one
byte. -/
def toChunksAux : Nat → Bytes → List Bytes
  | 0, _ => []
  | fuel + 1, bs =>
    if bs = [] then []
    else bs.take 4096 :: toChunksAux fuel (bs.drop 4096)

/-- The sequence of chunks `hmif.read(4096)` yields for a file with the
given contents. -/
def toChunks (bs : Bytes) : List Bytes :=
  toChunksAux bs.length bs

/-- The transfer loop of `transferFile` (lines 149-163) over the remaining
chunks, consuming one acknowledgement oracle entry per chunk: set a 5 s
timeout, write the chunk, print progress, set a 0.5 s timeout, sleep 0.5 s,
read one byte, and abort with failure unless it is the ACK byte. -/
def transferAux (fSize : Nat) :
    List Bytes → List Bytes → Nat → List Event × Bool
  | [], _, _ => ([], true)
  | c :: cs, acks, dcount =>
    let d := dcount + c.length
    let a := ((acks.head?).getD []).take 1
    let evs : List Event :=
      [.setTimeout 5, .write c, .msg (.progress d fSize),
        .setTimeout (1 / 2), .sleep (1 / 2), .read 1 a]
    if containsBytes a [ackByte] then
      (evs ++ (transferAux fSize cs acks.tail d).1,
        (transferAux fSize cs acks.tail d).2)
    else (evs, false)

/-- `transferFile(ser, filename, fSize)` (lines 146-165), with the file
contents given as `file` and the acknowledgement reads given by the oracle
`acks`. -/
def transferFile (file : Bytes) (acks : List Bytes) (fSize : Nat) :
    List Event × Bool :=
  transferAux fSize (toChunks file) acks 0

/-- The behaviour of the device across a whole run: the oracle entries for
the negotiation reads, the upgrade acknowledgement read, and the per-chunk
acknowledgement reads. -/
structure DeviceEnv where
  connectReads : List Bytes
  upgradeRead : Bytes
  ackReads : List Bytes
  deriving DecidableEq

/-- `upload(ser, filename, checkModel)` (lines 167-182): take the file size
(modelled as the length of the file contents), negotiate, switch the upload
speed to 115200, transfer, and exit 0 only after all three stages succeed,
printing the stage-specific failure message and exiting 1 otherwise. The
result is the event trace and the process exit status (or an uncaught
exception). -/
def upload (env : DeviceEnv) (file : Bytes) (checkModel : Option String) :
    List Event × Except Err Nat :=
  let fSize := file.length
  let g := getBaudrate env.connectReads (some fSize) checkModel
  match g.2 with
  | .error err => (g.1, .error err)
  | .ok false => (g.1 ++ [.msg .couldNotFindBaudrate], .ok 1)
  | .ok true =>
    let s := setDownloadBaudrate env.upgradeRead fSize 115200
    if s.2 then
      let t := transferFile file env.ackReads fSize
      if t.2 then (g.1 ++ s.1 ++ t.1 ++ [.msg .transferredOk], .ok 0)
      else (g.1 ++ s.1 ++ t.1 ++ [.msg .transferFailed], .ok 1)
    else (g.1 ++ s.1 ++ [.msg .couldNotSetUploadSpeed], .ok 1)

/-- The core of the model-name pattern `^NX\d\x7b4\x7d[TK]\d\x7b3\x7d$`
(line 201) on an exact character list: `NX`, four digits, `T` or `K`,
three digits, end. -/
def matchesModelCore : List Char → Bool
  | ['N', 'X', d1, d2, d3, d4, t, e1, e2, e3] =>
    d1.isDigit && d2.isDigit && d3.isDigit && d4.isDigit &&
      (t == 'T' || t == 'K') && e1.isDigit && e2.isDigit && e3.isDigit
  | _ => false

/-- `re.match` of the model pattern (lines 201-202): anchored at the start,
and `$` also matches just before a single trailing newline, as in Python's
`re`. Digits are modelled as ASCII decimal digits. -/
def matchesModel (s : String) : Bool :=
  matchesModelCore s.data ||
    (s.data.getLast? == some '\n' && matchesModelCore s.data.dropLast)

/-- The `__main__` block (lines 184-206): check the argument count, open
the serial device at 9600 baud with a 5 s timeout (`openOk` tells whether
opening raises `SerialException`), then — only when a fourth argument is
present — validate the model name against the pattern, and finally run
`upload`. Note the device is opened before the model name is validated. -/
def mainFlow (argv : List String) (openOk : Bool) (env : DeviceEnv)
    (file : Bytes) : List Event × Except Err Nat :=
  if argv.length = 3 ∨ argv.length = 4 then
    let dev := argv.getD 2 ""
    if openOk then
      let openEvs : List Event := [.openSerial dev 9600 5]
      if argv.length = 4 then
        let m := argv.getD 3 ""
        if matchesModel m then
          let u := upload env file (some m)
          (openEvs ++ u.1, u.2)
        else (openEvs ++ [.msg (.invalidModelName m)], .ok 1)
      else
        let u := upload env file none
        (openEvs ++ u.1, u.2)
    else ([.msg (.couldNotOpenSerial dev)], .ok 1)
  else ([.msg .usage], .ok 1)

/-! Observation helpers used to state the claims. -/

/-- The candidate speeds a negotiation trace actually probed, in order
(one `trying` report is printed per probe, line 102). -/
def triedSpeeds (evs : List Event) : List Nat :=
  evs.filterMap fun ev =>
    match ev with
    | .msg (.trying b _) => some b
    | _ => none

/-- The chunks a transfer trace actually wrote to the device. -/
def writtenChunks (evs : List Event) : List Bytes :=
  evs.filterMap fun ev =>
    match ev with
    | .write bs => some bs
    | _ => none

/-- Events a negotiation probe may emit before the `comok` response is
parsed: serial operations and the per-candidate `trying` report. -/
def isProbeEvent : Event → Bool
  | .setBaud _ => true
  | .setTimeout _ => true
  | .write _ => true
  | .read _ _ => true
  | .msg (.trying _ _) => true
  | _ => false

/-- Index (within the first `fuel` oracle entries) of the first probe whose
response contains `comok`, mirroring how `getBaudrateAux` consumes the
oracle. -/
def firstComokIdxAux : Nat → List Bytes → Option Nat
  | 0, _ => none
  | fuel + 1, devs =>
    if containsBytes (headResp devs) comokBytes then some 0
    else (firstComokIdxAux fuel devs.tail).map (· + 1)

/-- The response the `i`-th probe reads from the oracle. -/
def respAt (devs : List Bytes) (i : Nat) : Bytes :=
  ((devs.getD i []).take 128)

/-- Whether one acknowledgement read (already truncated to one byte)
contains the ACK byte. -/
def hasAck (a : Bytes) : Bool := containsBytes a [ackByte]

/-- Number of leading acknowledgement oracle entries that acknowledge. -/
def goodAcks : List Bytes → Nat
  | [] => 0
  | a :: as => if hasAck (a.take 1) then goodAcks as + 1 else 0

/-- Whether an `Except` result is a normal return. -/
def exceptOk {ε α : Type} : Except ε α → Bool
  | .ok _ => true
  | .error _ => false

/-- Concatenation of a chunk list. -/
def joinChunks (cs : List Bytes) : Bytes :=
  cs.foldr (fun c acc => c ++ acc) []

/-! Concrete inputs used by counterexamples and witnesses. -/

/-- A well-formed handshake response reporting model `NX4832K035` and flash
size 16777216. -/
def respNX4832 : Bytes :=
  encodeUtf8 "comok 1,30211,NX4832K035,145,61488,D264B8204F0E1828,16777216"

/-- A handshake response whose reported flash size parses to the negative
integer -1. -/
def respNegFlash : Bytes :=
  encodeUtf8 "comok 1,30211,NX4832K035,145,61488,D264B8204F0E1828,-1"

/-- A handshake response containing `comok` but only six comma-separated
fields. -/
def respSixFields : Bytes :=
  encodeUtf8 "comok 1,30211,NX4832K035,145,61488,D264B8204F0E1828"

/-- The parsed record of `respNX4832`. -/
def infoNX4832 : DeviceInfo :=
  { status := "comok", touchscreen := "yes",
    modelBytes := encodeUtf8 "NX4832K035", model := "NX4832K035",
    fwversion := "145", mcucode := "61488",
    serialNum := "D264B8204F0E1828", flash := "16777216" }

/-- An 8192-byte file: exactly two full 4096-byte chunks. -/
def file8192 : Bytes := List.replicate 8192 0

/-- A device environment in which every read returns nothing. -/
def deadDevice : DeviceEnv := ⟨[], [], []⟩

/-- The parsed record of `respNegFlash`. -/
def infoNegFlash : DeviceInfo :=
  { status := "comok", touchscreen := "yes",
    modelBytes := encodeUtf8 "NX4832K035", model := "NX4832K035",
    fwversion := "145", mcucode := "61488",
    serialNum := "D264B8204F0E1828", flash := "-1" }

/-- A handshake response with seven comma-separated fields whose first
field contains no space. -/
def respNoSpace : Bytes :=
  encodeUtf8 "comok,30211,NX4832K035,145,61488,D264B8204F0E1828,16777216"

/-! Helper lemmas. -/

theorem headResp_eq_respAt_zero (devs : List Bytes) :
    headResp devs = respAt devs 0 := by
  cases devs <;> rfl

theorem respAt_tail (devs : List Bytes) (k : Nat) :
    respAt devs.tail k = respAt devs (k + 1) := by
  cases devs <;> rfl

theorem triedSpeeds_append (l1 l2 : List Event) :
    triedSpeeds (l1 ++ l2) = triedSpeeds l1 ++ triedSpeeds l2 :=
  List.filterMap_append l1 l2 _

theorem triedSpeeds_probeEvs (b : Nat) (resp : Bytes) :
    triedSpeeds (probeEvs b resp) = [b] := rfl

theorem triedSpeeds_handleSuccess (r : Bytes) (b : Nat) (fS : Option Nat)
    (cm : Option String) : triedSpeeds (handleSuccess r b fS cm).1 = [] := by
  cases hp : parseResponse r with
  | error err => simp [handleSuccess, hp, triedSpeeds]
  | ok info =>
    cases hfc : flashCheck fS info.flash with
    | error err => simp [handleSuccess, hp, hfc, triedSpeeds]
    | ok tooBig =>
      cases tooBig with
      | true => simp [handleSuccess, hp, hfc, triedSpeeds]
      | false =>
        by_cases hmc : modelCheckFails cm info.modelBytes = true <;>
          simp [handleSuccess, hp, hfc, hmc, triedSpeeds]

theorem auxProbeOrderSome (fS : Option Nat) (cm : Option String) :
    ∀ (cands : List Nat) (devs : List Bytes) (k : Nat),
      firstComokIdxAux cands.length devs = some k →
      triedSpeeds (getBaudrateAux fS cm cands devs).1 = cands.take (k + 1) := by
  intro cands
  induction cands with
  | nil => intro devs k h; simp [firstComokIdxAux] at h
  | cons b bs ih =>
    intro devs k h
    by_cases hc : containsBytes (headResp devs) comokBytes
    · simp [firstComokIdxAux, hc] at h
      subst h
      simp [getBaudrateAux, hc, triedSpeeds_append, triedSpeeds_probeEvs,
        triedSpeeds_handleSuccess]
    · simp only [List.length_cons, firstComokIdxAux, hc, if_false,
        Bool.false_eq_true] at h
      cases hrec : firstComokIdxAux bs.length devs.tail with
      | none => rw [hrec] at h; simp at h
      | some k' =>
        rw [hrec] at h
        simp at h
        subst h
        simp [getBaudrateAux, hc, triedSpeeds_append, triedSpeeds_probeEvs,
          ih devs.tail k' hrec]

theorem auxProbeOrderNone (fS : Option Nat) (cm : Option String) :
    ∀ (cands : List Nat) (devs : List Bytes),
      firstComokIdxAux cands.length devs = none →
      triedSpeeds (getBaudrateAux fS cm cands devs).1 = cands ∧
        (getBaudrateAux fS cm cands devs).2 = .ok false := by
  intro cands
  induction cands with
  | nil => intro devs _; exact ⟨rfl, rfl⟩
  | cons b bs ih =>
    intro devs h
    by_cases hc : containsBytes (headResp devs) comokBytes
    · simp [firstComokIdxAux, hc] at h
    · simp only [List.length_cons, firstComokIdxAux, hc, if_false,
        Bool.false_eq_true] at h
      cases hrec : firstComokIdxAux bs.length devs.tail with
      | some k' => rw [hrec] at h; simp at h
      | none =>
        obtain ⟨h1, h2⟩ := ih devs.tail hrec
        refine ⟨?_, ?_⟩
        · simp [getBaudrateAux, hc, triedSpeeds_append, triedSpeeds_probeEvs, h1]
        · simp [getBaudrateAux, hc, h2]

theorem auxFirstComok (fS : Option Nat) (cm : Option String) :
    ∀ (cands : List Nat) (devs : List Bytes) (k : Nat),
      firstComokIdxAux cands.length devs = some k →
      ∃ b pre, cands.getD k 0 = b ∧
        (getBaudrateAux fS cm cands devs).1 =
          pre ++ (handleSuccess (respAt devs k) b fS cm).1 ∧
        (getBaudrateAux fS cm cands devs).2 =
          (handleSuccess (respAt devs k) b fS cm).2 ∧
        ∀ ev ∈ pre, isProbeEvent ev = true := by
  intro cands
  induction cands with
  | nil => intro devs k h; simp [firstComokIdxAux] at h
  | cons b bs ih =>
    intro devs k h
    by_cases hc : containsBytes (headResp devs) comokBytes
    · simp [firstComokIdxAux, hc] at h
      subst h
      refine ⟨b, probeEvs b (headResp devs), rfl, ?_, ?_, ?_⟩
      · rw [← headResp_eq_respAt_zero]
        simp [getBaudrateAux, hc]
      · rw [← headResp_eq_respAt_zero]
        simp [getBaudrateAux, hc]
      · intro ev hev
        simp [probeEvs] at hev
        rcases hev with h | h | h | h | h | h | h <;> subst h <;> rfl
    · simp only [List.length_cons, firstComokIdxAux, hc, if_false,
        Bool.false_eq_true] at h
      cases hrec : firstComokIdxAux bs.length devs.tail with
      | none => rw [hrec] at h; simp at h
      | some k' =>
        rw [hrec] at h
        simp at h
        subst h
        obtain ⟨b', pre', hb', hev', hres', hpre'⟩ := ih devs.tail k' hrec
        refine ⟨b', probeEvs b (headResp devs) ++ pre', ?_, ?_, ?_, ?_⟩
        · simpa using hb'
        · rw [respAt_tail] at hev'
          simp [getBaudrateAux, hc, hev']
        · rw [respAt_tail] at hres'
          simp [getBaudrateAux, hc, hres']
        · intro ev hev
          rcases List.mem_append.mp hev with h | h
          · simp [probeEvs] at h
            rcases h with h | h | h | h | h | h | h <;> subst h <;> rfl
          · exact hpre' ev h

theorem headAck_eq (acks : List Bytes) :
    ((acks.head?).getD []).take 1 = (acks.getD 0 []).take 1 := by
  cases acks <;> rfl

theorem getD_tail (acks : List Bytes) (i : Nat) :
    acks.tail.getD i [] = acks.getD (i + 1) [] := by
  cases acks <;> simp [List.getD]

theorem goodAcks_head_false (acks : List Bytes)
    (h : hasAck ((acks.getD 0 []).take 1) = false) : goodAcks acks = 0 := by
  cases acks with
  | nil => rfl
  | cons a as => simp [List.getD] at h; simp [goodAcks, h]

theorem goodAcks_head_true (acks : List Bytes)
    (h : hasAck ((acks.getD 0 []).take 1) = true) :
    goodAcks acks = goodAcks acks.tail + 1 := by
  cases acks with
  | nil => simp [List.getD, hasAck, containsBytes] at h
  | cons a as => simp [List.getD] at h; simp [goodAcks, h]

theorem writtenChunks_append (l1 l2 : List Event) :
    writtenChunks (l1 ++ l2) = writtenChunks l1 ++ writtenChunks l2 :=
  List.filterMap_append l1 l2 _

theorem transferAux_spec (fSize : Nat) :
    ∀ (cs : List Bytes) (acks : List Bytes) (dcount : Nat),
      ((transferAux fSize cs acks dcount).2 = true ↔
        ∀ i, i < cs.length → hasAck ((acks.getD i []).take 1) = true) ∧
      writtenChunks (transferAux fSize cs acks dcount).1 =
        cs.take (goodAcks acks + 1) := by
  intro cs
  induction cs with
  | nil =>
    intro acks dcount
    exact ⟨by simp [transferAux], by simp [transferAux, writtenChunks]⟩
  | cons c cs ih =>
    intro acks dcount
    rw [show transferAux fSize (c :: cs) acks dcount =
      (let d := dcount + c.length
       let a := ((acks.head?).getD []).take 1
       let evs : List Event :=
         [.setTimeout 5, .write c, .msg (.progress d fSize),
           .setTimeout (1 / 2), .sleep (1 / 2), .read 1 a]
       if containsBytes a [ackByte] then
         (evs ++ (transferAux fSize cs acks.tail d).1,
           (transferAux fSize cs acks.tail d).2)
       else (evs, false)) from rfl]
    rw [headAck_eq acks]
    by_cases ha : hasAck ((acks.getD 0 []).take 1)
    · have hgood := goodAcks_head_true acks ha
      obtain ⟨ih1, ih2⟩ := ih acks.tail (dcount + c.length)
      have hshift : (∀ i, i < cs.length →
          hasAck ((acks.tail.getD i []).take 1) = true) ↔
          (∀ i, i < (c :: cs).length →
            hasAck ((acks.getD i []).take 1) = true) := by
        constructor
        · intro hall i hi
          cases i with
          | zero => exact ha
          | succ j =>
            rw [← getD_tail]
            exact hall j (Nat.lt_of_succ_lt_succ hi)
        · intro hall i hi
          rw [getD_tail]
          exact hall (i + 1) (Nat.succ_lt_succ hi)
      refine ⟨?_, ?_⟩
      · simp only [hasAck] at ha
        simp only [ha, if_true]
        exact ih1.trans hshift
      · simp only [hasAck] at ha
        simp only [ha, if_true, writtenChunks_append, hgood]
        rw [ih2]
        rfl
    · have hgood := goodAcks_head_false acks (by simpa using ha)
      rw [hasAck] at ha
      simp only [Bool.not_eq_true] at ha
      refine ⟨?_, ?_⟩
      · simp only [ha, if_false, Bool.false_eq_true, false_iff]
        intro hall
        have h0 := hall 0 (Nat.succ_pos _)
        rw [hasAck] at h0
        simp only [List.getD, List.get?_eq_getElem?] at h0 ha
        simp [h0] at ha
      · simp only [ha, if_false, hgood]
        rfl

theorem joinChunks_toChunksAux :
    ∀ (fuel : Nat) (bs : Bytes), bs.length ≤ fuel →
      joinChunks (toChunksAux fuel bs) = bs := by
  intro fuel
  induction fuel with
  | zero =>
    intro bs h
    have : bs = [] := List.length_eq_zero.mp (Nat.le_zero.mp h)
    subst this
    rfl
  | succ n ih =>
    intro bs h
    by_cases hbs : bs = []
    · subst hbs; rfl
    · rw [show toChunksAux (n + 1) bs =
        (if bs = [] then [] else bs.take 4096 :: toChunksAux n (bs.drop 4096))
        from rfl]
      simp only [hbs, if_false]
      rw [show joinChunks (bs.take 4096 :: toChunksAux n (bs.drop 4096)) =
        bs.take 4096 ++ joinChunks (toChunksAux n (bs.drop 4096)) from rfl]
      rw [ih (bs.drop 4096) ?hlen]
      · exact List.take_append_drop 4096 bs
      case hlen =>
        rw [List.length_drop]
        have h1 : 1 ≤ bs.length := by
          cases bs with
          | nil => exact absurd rfl hbs
          | cons x xs => exact Nat.succ_le_succ (Nat.zero_le _)
        omega

theorem toChunksAux_size :
    ∀ (fuel : Nat) (bs : Bytes) (c : Bytes), c ∈ toChunksAux fuel bs →
      c.length ≤ 4096 := by
  intro fuel
  induction fuel with
  | zero => intro bs c h; simp [toChunksAux] at h
  | succ n ih =>
    intro bs c h
    rw [show toChunksAux (n + 1) bs =
      (if bs = [] then [] else bs.take 4096 :: toChunksAux n (bs.drop 4096))
      from rfl] at h
    by_cases hbs : bs = []
    · simp [hbs] at h
    · simp only [hbs, if_false, List.mem_cons] at h
      rcases h with h | h
      · subst h
        simp only [List.length_take]
        exact Nat.min_le_left _ _
      · exact ih (bs.drop 4096) c h

theorem toChunksAux_nil (fuel : Nat) : toChunksAux fuel [] = [] := by
  cases fuel <;> rfl

theorem toChunksAux_step (fuel : Nat) (bs : Bytes) (h : ¬ bs = []) :
    toChunksAux (fuel + 1) bs = bs.take 4096 :: toChunksAux fuel (bs.drop 4096) := by
  simp [toChunksAux, h]

theorem toChunks_file8192 :
    toChunks file8192 = [List.replicate 4096 0, List.replicate 4096 0] := by
  have h1 : file8192.length = 8192 := by
    rw [file8192, List.length_replicate]
  have hne : ¬ file8192 = [] := by
    rw [file8192, List.replicate_eq_nil_iff]; omega
  have htake : file8192.take 4096 = List.replicate 4096 0 := by
    rw [file8192, List.take_replicate]; norm_num
  have hdrop : file8192.drop 4096 = List.replicate 4096 0 := by
    rw [file8192, List.drop_replicate]
  have hne2 : ¬ (List.replicate 4096 (0 : Nat)) = [] := by
    rw [List.replicate_eq_nil_iff]; omega
  have htake2 : (List.replicate 4096 (0 : Nat)).take 4096 =
      List.replicate 4096 0 := by
    rw [List.take_replicate]; norm_num
  have hdrop2 : (List.replicate 4096 (0 : Nat)).drop 4096 = [] := by
    rw [List.drop_replicate]; norm_num
  rw [toChunks, h1]
  rw [show (8192 : Nat) = 8191 + 1 from rfl, toChunksAux_step _ _ hne,
    htake, hdrop]
  rw [show (8191 : Nat) = 8190 + 1 from rfl, toChunksAux_step _ _ hne2,
    htake2, hdrop2]
  rw [toChunksAux_nil]

theorem containsBytes_nil_needle (hay : Bytes) :
    containsBytes hay [] = true := by
  simp only [containsBytes, List.any_eq_true]
  refine ⟨0, ?_, ?_⟩
  · simp
  · simp

theorem containsBytes_take_one (r : Bytes) (x : Nat) :
    containsBytes (r.take 1) [x] = true ↔ r.take 1 = [x] := by
  cases r with
  | nil => simp [containsBytes]
  | cons a as =>
    rw [show (a :: as).take 1 = [a] from by simp]
    constructor
    · intro h
      simp only [containsBytes, List.any_eq_true] at h
      obtain ⟨i, hi, heq⟩ := h
      simp only [List.length_cons, List.length_nil, List.mem_range] at hi
      interval_cases i
      · simpa using heq
      · simp at heq
    · intro h
      rw [h]
      simp only [containsBytes, List.any_eq_true]
      exact ⟨0, by simp, by simp⟩

theorem handleSuccess_zero (r : Bytes) (b : Nat) (cm : Option String) :
    handleSuccess r b (some 0) cm = handleSuccess r b none cm := by
  unfold handleSuccess
  cases parseResponse r <;> rfl

theorem auxZero (cm : Option String) :
    ∀ (cands : List Nat) (devs : List Bytes),
      getBaudrateAux (some 0) cm cands devs =
        getBaudrateAux none cm cands devs := by
  intro cands
  induction cands with
  | nil => intro devs; rfl
  | cons b bs ih =>
    intro devs
    by_cases hc : containsBytes (headResp devs) comokBytes <;>
      simp [getBaudrateAux, hc, handleSuccess_zero, ih]

theorem handleSuccess_flash (r : Bytes) (b : Nat) (n : Nat) (cm : Option String)
    (info : DeviceInfo) (f : Int)
    (hp : parseResponse r = .ok info) (hf : pyInt info.flash = .ok f) :
    ((handleSuccess r b (some n) cm).2 = .ok false ∧
      Event.msg .fileTooBig ∈ (handleSuccess r b (some n) cm).1) ↔
      (n ≠ 0 ∧ (n : Int) > f) := by
  by_cases hn : n = 0
  · subst hn
    have hfc : flashCheck (some 0) info.flash = .ok false := rfl
    by_cases hmc : modelCheckFails cm info.modelBytes = true <;>
      simp [handleSuccess, hp, hfc, hmc]
  · by_cases hgt : (n : Int) > f
    · have hfc : flashCheck (some n) info.flash = .ok true := by
        simp [flashCheck, hn, hf, hgt]
      simp [handleSuccess, hp, hfc, hn, hgt]
    · have hfc : flashCheck (some n) info.flash = .ok false := by
        simp [flashCheck, hn, hf, hgt]
      by_cases hmc : modelCheckFails cm info.modelBytes = true <;>
        simp [handleSuccess, hp, hfc, hmc, hgt]

theorem handleSuccess_model (r : Bytes) (b : Nat) (fS : Option Nat) (m : String)
    (info : DeviceInfo)
    (hp : parseResponse r = .ok info)
    (hfc : flashCheck fS info.flash = .ok false) :
    ((handleSuccess r b fS (some m)).2 = .ok false ∧
      Event.msg .wrongDisplay ∈ (handleSuccess r b fS (some m)).1) ↔
      containsBytes info.modelBytes (encodeUtf8 m) = false := by
  by_cases hm : m = ""
  · subst hm
    have hmc : modelCheckFails (some "") info.modelBytes = false := rfl
    have hcont : containsBytes info.modelBytes (encodeUtf8 "") = true :=
      containsBytes_nil_needle info.modelBytes
    simp [handleSuccess, hp, hfc, hmc, hcont]
  · by_cases hcont : containsBytes info.modelBytes (encodeUtf8 m) = true
    · have hmc : modelCheckFails (some m) info.modelBytes = false := by
        simp [modelCheckFails, hm, hcont]
      simp [handleSuccess, hp, hfc, hmc, hcont]
    · have hmc : modelCheckFails (some m) info.modelBytes = true := by
        simp only [Bool.not_eq_true] at hcont
        simp [modelCheckFails, hm, hcont]
      simp only [Bool.not_eq_true] at hcont
      simp [handleSuccess, hp, hfc, hmc, hcont]

/-! Claim theorems. -/

/-- C1 (amended): candidate baud rates are probed in the strictly
descending source order 115200, 57600, 38400, 19200, 9600, stopping at the
first candidate whose response contains `comok` (the probed speeds are
exactly the prefix of the candidate list up to and including that
candidate); when no candidate's response contains `comok`, all five
candidates are probed and negotiation fails. (The original claim's further
assertion that every failing negotiation probes all five candidates is
refuted by `negotiation_probe_order_cex`: a negotiation that finds `comok`
at the first candidate but then fails post-parse validation stops after a
single probe.) -/
theorem negotiation_probe_order (devs : List Bytes) (fS : Option Nat)
    (cm : Option String) :
    (∀ k, firstComokIdxAux 5 devs = some k →
      triedSpeeds (getBaudrate devs fS cm).1 = baudCandidates.take (k + 1)) ∧
    (firstComokIdxAux 5 devs = none →
      triedSpeeds (getBaudrate devs fS cm).1 = baudCandidates ∧
        (getBaudrate devs fS cm).2 = .ok false) := by
  constructor
  · intro k hk
    exact auxProbeOrderSome fS cm baudCandidates devs k hk
  · intro hk
    exact auxProbeOrderNone fS cm baudCandidates devs hk

/-- C1, counterexample to the claim as stated: with the first candidate's
response containing `comok` but the file (20000000 bytes) exceeding the
reported flash size (16777216), negotiation fails after probing only the
single candidate 115200 — a failing negotiation in which not all five
candidates are probed. -/
theorem negotiation_probe_order_cex :
    (getBaudrate [respNX4832] (some 20000000) none).2 = .ok false ∧
    triedSpeeds (getBaudrate [respNX4832] (some 20000000) none).1 =
      [115200] := by
  exact ⟨by decide, by decide⟩

/-- C1, witness: a handshake succeeding at the first candidate probes
exactly the first entry of the candidate list. -/
theorem negotiation_probe_order_witness :
    triedSpeeds (getBaudrate [respNX4832] none none).1 =
      baudCandidates.take 1 :=
  (negotiation_probe_order [respNX4832] none none).1 0 (by decide)

/-- C2: every probed candidate performs exactly these steps in order — set
the connection baud rate to the candidate, set the read timeout to
`3000/candidate + 0.2` seconds, write the delimiter `FF FF FF`, write the
ASCII bytes `connect`, write the delimiter again, read up to 128 bytes —
and the probe counts as successful (proceeding to response parsing rather
than the next candidate) exactly when the bytes read contain the substring
`comok`. -/
theorem negotiation_probe_steps (fS : Option Nat) (cm : Option String)
    (b : Nat) (bs : List Nat) (devs : List Bytes) :
    (getBaudrateAux fS cm (b :: bs) devs).1 =
      [.setBaud b, .setTimeout ((3000 : ℚ) / (b : ℚ) + 1 / 5), .write delim,
        .write connectCmd, .write delim, .read 128 (headResp devs),
        .msg (.trying b (containsBytes (headResp devs) comokBytes))] ++
      (if containsBytes (headResp devs) comokBytes then
        (handleSuccess (headResp devs) b fS cm).1
       else (getBaudrateAux fS cm bs devs.tail).1) ∧
    (getBaudrateAux fS cm (b :: bs) devs).2 =
      (if containsBytes (headResp devs) comokBytes then
        (handleSuccess (headResp devs) b fS cm).2
       else (getBaudrateAux fS cm bs devs.tail).2) ∧
    headResp devs = ((devs.head?).getD []).take 128 := by
  refine ⟨?_, ?_, rfl⟩ <;>
    by_cases hc : containsBytes (headResp devs) comokBytes <;>
      simp [getBaudrateAux, probeEvs, hc]

/-- C10: a zero file size behaves as an absent one during negotiation (the
flash-size validation is skipped entirely, so the whole negotiation is the
same as with no size given), and transferring an empty file succeeds
immediately with no events at all — no chunk write and no acknowledgement
read. -/
theorem zero_size_file (devs : List Bytes) (cm : Option String)
    (acks : List Bytes) :
    getBaudrate devs (some 0) cm = getBaudrate devs none cm ∧
    transferFile [] acks 0 = ([], true) :=
  ⟨auxZero cm baudCandidates devs, rfl⟩

/-- C3: the transfer reads the file sequentially in 4096-byte chunks (the
chunks concatenate back to the file and each is at most 4096 bytes, the
final one possibly shorter); it succeeds exactly when every chunk's
acknowledgement read yields the byte 0x05, and the chunks written are
precisely those up to and including the first unacknowledged one — nothing
further is written after a failed acknowledgement. In particular, for an
8192-byte file the transfer succeeds when both chunks are acknowledged,
and with the second chunk unacknowledged it fails after exactly one
successfully acknowledged chunk (both chunks written, none after). -/
theorem transfer_chunk_acks (file : Bytes) (acks : List Bytes) :
    ((transferFile file acks file.length).2 = true ↔
      ∀ i, i < (toChunks file).length →
        hasAck ((acks.getD i []).take 1) = true) ∧
    writtenChunks (transferFile file acks file.length).1 =
      (toChunks file).take (goodAcks acks + 1) ∧
    joinChunks (toChunks file) = file ∧
    (∀ c, c ∈ toChunks file → c.length ≤ 4096) ∧
    (transferFile file8192 [[ackByte], [ackByte]] 8192).2 = true ∧
    (transferFile file8192 [[ackByte], []] 8192).2 = false ∧
    goodAcks [[ackByte], []] = 1 ∧
    (writtenChunks (transferFile file8192 [[ackByte], []] 8192).1).length =
      2 := by
  obtain ⟨h1, h2⟩ := transferAux_spec file.length (toChunks file) acks 0
  refine ⟨h1, h2, joinChunks_toChunksAux file.length file (le_refl _),
    fun c hc => toChunksAux_size file.length file c hc, ?_, ?_, by decide, ?_⟩
  · show (transferAux 8192 (toChunks file8192) [[ackByte], [ackByte]] 0).2 =
      true
    rw [toChunks_file8192]
    decide
  · show (transferAux 8192 (toChunks file8192) [[ackByte], []] 0).2 = false
    rw [toChunks_file8192]
    decide
  · show (writtenChunks
      (transferAux 8192 (toChunks file8192) [[ackByte], []] 0).1).length = 2
    rw [toChunks_file8192]
    decide

/-- C3, witness: the success criterion instantiated at the 8192-byte file
with both chunks acknowledged. -/
theorem transfer_chunk_acks_witness :
    (transferFile file8192 [[ackByte], [ackByte]] file8192.length).2 =
        true ↔
      ∀ i, i < (toChunks file8192).length →
        hasAck ((([[ackByte], [ackByte]] : List Bytes).getD i []).take 1) =
          true :=
  (transfer_chunk_acks file8192 [[ackByte], [ackByte]]).1

/-- C4: the speed upgrader performs exactly these steps in order — an
empty write, the write of the ASCII command
`whmi-wri <fileSizeBytes>,<targetBaud>,0` followed by the delimiter (both
writes occur before the baud switch, hence at the currently negotiated
rate), a 50 ms sleep, the switch of the baud rate to the target, setting
the read timeout to 0.5 s, a read of one byte — and it returns success
exactly when the byte read is 0x05 (an empty timed-out read fails). -/
theorem upgrade_command_steps (ackRead : Bytes) (fSize baudrate : Nat) :
    (setDownloadBaudrate ackRead fSize baudrate).1 =
      [.write [],
        .write (encodeUtf8 ("whmi-wri " ++ toString fSize ++ "," ++
          toString baudrate ++ ",0") ++ delim),
        .sleep (1 / 20), .setBaud baudrate, .setTimeout (1 / 2),
        .read 1 (ackRead.take 1)] ++
      (if (setDownloadBaudrate ackRead fSize baudrate).2 then
        [.msg (.uploadSpeedOk baudrate)]
       else [.msg (.uploadSpeedFail baudrate)]) ∧
    ((setDownloadBaudrate ackRead fSize baudrate).2 = true ↔
      ackRead.take 1 = [ackByte]) := by
  constructor
  · by_cases hc : containsBytes (ackRead.take 1) [ackByte] <;>
      simp [setDownloadBaudrate, hc]
  · exact containsBytes_take_one ackRead ackByte

/-- C5 (amended): for every negotiation in which a handshake succeeds, a
file size is given and the reported flash size parses as an integer,
negotiation fails with the "file too big" error exactly when the file size
is nonzero and strictly exceeds the parsed flash size. (The original
claim omitted "nonzero": Python's `if fSize and ...` short-circuits on a
zero size, refuted by `flash_size_gate_cex`.) -/
theorem flash_size_gate (devs : List Bytes) (n : Nat) (cm : Option String)
    (k : Nat) (info : DeviceInfo) (f : Int)
    (hk : firstComokIdxAux 5 devs = some k)
    (hp : parseResponse (respAt devs k) = .ok info)
    (hf : pyInt info.flash = .ok f) :
    ((getBaudrate devs (some n) cm).2 = .ok false ∧
      Event.msg .fileTooBig ∈ (getBaudrate devs (some n) cm).1) ↔
      (n ≠ 0 ∧ (n : Int) > f) := by
  obtain ⟨b, pre, hb, hev, hres, hpre⟩ :=
    auxFirstComok (some n) cm baudCandidates devs k hk
  unfold getBaudrate
  rw [hev, hres]
  have hmem : (Event.msg .fileTooBig ∈
      pre ++ (handleSuccess (respAt devs k) b (some n) cm).1) ↔
      Event.msg .fileTooBig ∈
        (handleSuccess (respAt devs k) b (some n) cm).1 := by
    rw [List.mem_append]
    constructor
    · rintro (h | h)
      · exact absurd (hpre _ h) (by decide)
      · exact h
    · exact Or.inr
  rw [hmem]
  exact handleSuccess_flash (respAt devs k) b n cm info f hp hf

/-- C5, counterexample to the claim as stated: the handshake succeeds at
115200, the file size 0 is given, the reported flash size parses to the
integer -1, and the file size strictly exceeds it (0 > -1) — yet
negotiation succeeds with no "file too big" error, because `if fSize and
...` skips the comparison for a zero (falsy) size. -/
theorem flash_size_gate_cex :
    firstComokIdxAux 5 [respNegFlash] = some 0 ∧
    parseResponse (respAt [respNegFlash] 0) = .ok infoNegFlash ∧
    pyInt infoNegFlash.flash = .ok (-1) ∧
    ((0 : Int) > (-1 : Int)) ∧
    (getBaudrate [respNegFlash] (some 0) none).2 = .ok true ∧
    Event.msg .fileTooBig ∉ (getBaudrate [respNegFlash] (some 0) none).1 := by
  exact ⟨by decide, by decide, by decide, by decide, by decide, by decide⟩

/-- C5, witness: the claim's own instance — flash size 16777216, file size
20000000 — negotiation fails with the "file too big" error. -/
theorem flash_size_gate_witness :
    (getBaudrate [respNX4832] (some 20000000) none).2 = .ok false ∧
    Event.msg .fileTooBig ∈ (getBaudrate [respNX4832] (some 20000000) none).1 :=
  (flash_size_gate [respNX4832] 20000000 none 0 infoNX4832 16777216
    (by decide) (by decide) (by decide)).mpr (by decide)

/-- C6: for every negotiation in which a handshake succeeds, an expected
model is given and the flash-size check passes, negotiation fails with the
"wrong display" error exactly when the reported model field (as raw bytes)
does not contain the UTF-8 encoding of the expected model as a substring. -/
theorem model_gate (devs : List Bytes) (fS : Option Nat) (m : String)
    (k : Nat) (info : DeviceInfo)
    (hk : firstComokIdxAux 5 devs = some k)
    (hp : parseResponse (respAt devs k) = .ok info)
    (hfc : flashCheck fS info.flash = .ok false) :
    ((getBaudrate devs fS (some m)).2 = .ok false ∧
      Event.msg .wrongDisplay ∈ (getBaudrate devs fS (some m)).1) ↔
      containsBytes info.modelBytes (encodeUtf8 m) = false := by
  obtain ⟨b, pre, hb, hev, hres, hpre⟩ :=
    auxFirstComok fS (some m) baudCandidates devs k hk
  unfold getBaudrate
  rw [hev, hres]
  have hmem : (Event.msg .wrongDisplay ∈
      pre ++ (handleSuccess (respAt devs k) b fS (some m)).1) ↔
      Event.msg .wrongDisplay ∈
        (handleSuccess (respAt devs k) b fS (some m)).1 := by
    rw [List.mem_append]
    constructor
    · rintro (h | h)
      · exact absurd (hpre _ h) (by decide)
      · exact h
    · exact Or.inr
  rw [hmem]
  exact handleSuccess_model (respAt devs k) b fS m info hp hfc

/-- C6, witness: the claim's own instance — expected model `NX3224T024`
against reported model `NX4832K035` — negotiation fails with the "wrong
display" error. -/
theorem model_gate_witness :
    (getBaudrate [respNX4832] none (some "NX3224T024")).2 = .ok false ∧
    Event.msg .wrongDisplay ∈
      (getBaudrate [respNX4832] none (some "NX3224T024")).1 :=
  (model_gate [respNX4832] none "NX3224T024" 0 infoNX4832
    (by decide) (by decide) rfl).mpr (by decide)

/-- C7 (amended): the response-record parsing step is not total — it
returns normally exactly when the stripped response splits on commas into
exactly 7 fields and the first field splits on spaces into at least two
parts (otherwise it raises the unpack `ValueError` or the `IndexError`
respectively); only the byte-to-text decoding step is total, with invalid
bytes dropped rather than fatal, as the two concrete decodings show. -/
theorem parse_domain (r : Bytes) :
    (exceptOk (parseResponse r) = true ↔
      ((splitOnByte commaByte (stripBytes r)).length = 7 ∧
        2 ≤ (splitOnByte spaceByte
          ((splitOnByte commaByte (stripBytes r)).headD [])).length)) ∧
    decodeIgnore [0xff, 0x41] = "A" ∧
    decodeIgnore [0x63, 0x6f, 0x80, 0x6d] = "com" := by
  refine ⟨?_, by decide, by decide⟩
  by_cases h7 : (splitOnByte commaByte (stripBytes r)).length = 7
  · by_cases h2 : 2 ≤ (splitOnByte spaceByte
        ((splitOnByte commaByte (stripBytes r)).headD [])).length
    · simp only [List.headD_eq_head?_getD] at h2
      simp [parseResponse, h7, h2, exceptOk]
    · simp only [List.headD_eq_head?_getD] at h2
      simp [parseResponse, h7, h2, exceptOk]
  · simp [parseResponse, h7, exceptOk]

/-- C7, counterexample to the claim as stated: a handshake response
containing `comok` with only six comma-separated fields makes the parse
raise the tuple-unpack `ValueError` (the negotiation's result is that
uncaught exception), and one with seven fields but no space in the status
field raises `IndexError` — parsing is not total in the number of fields
or the presence of a space. -/
theorem parse_domain_cex :
    containsBytes respSixFields comokBytes = true ∧
    (getBaudrate [respSixFields] none none).2 = .error .unpackError ∧
    containsBytes respNoSpace comokBytes = true ∧
    (getBaudrate [respNoSpace] none none).2 = .error .indexError := by
  exact ⟨by decide, by decide, by decide, by decide⟩

/-- C8: the orchestrator runs negotiation, speed upgrade and transfer
strictly in that order; the process exits with status 0 exactly when all
three stages succeed, and each failing stage prints its distinct message
and exits with status 1 producing no events of any later stage — in
particular, when no candidate's response contains `comok`, the trace is
the negotiation events followed only by the failure message, so the
`whmi-wri` command and the chunks are never written. -/
theorem orchestration (env : DeviceEnv) (file : Bytes) (cm : Option String) :
    ((upload env file cm).2 = .ok 0 ↔
      ((getBaudrate env.connectReads (some file.length) cm).2 = .ok true ∧
        (setDownloadBaudrate env.upgradeRead file.length 115200).2 = true ∧
        (transferFile file env.ackReads file.length).2 = true)) ∧
    ((getBaudrate env.connectReads (some file.length) cm).2 = .ok false →
      upload env file cm =
        ((getBaudrate env.connectReads (some file.length) cm).1 ++
          [.msg .couldNotFindBaudrate], .ok 1)) ∧
    ((getBaudrate env.connectReads (some file.length) cm).2 = .ok true →
      (setDownloadBaudrate env.upgradeRead file.length 115200).2 = false →
      upload env file cm =
        ((getBaudrate env.connectReads (some file.length) cm).1 ++
          (setDownloadBaudrate env.upgradeRead file.length 115200).1 ++
          [.msg .couldNotSetUploadSpeed], .ok 1)) ∧
    ((getBaudrate env.connectReads (some file.length) cm).2 = .ok true →
      (setDownloadBaudrate env.upgradeRead file.length 115200).2 = true →
      (transferFile file env.ackReads file.length).2 = false →
      upload env file cm =
        ((getBaudrate env.connectReads (some file.length) cm).1 ++
          (setDownloadBaudrate env.upgradeRead file.length 115200).1 ++
          (transferFile file env.ackReads file.length).1 ++
          [.msg .transferFailed], .ok 1)) ∧
    (firstComokIdxAux 5 env.connectReads = none →
      upload env file cm =
        ((getBaudrate env.connectReads (some file.length) cm).1 ++
          [.msg .couldNotFindBaudrate], .ok 1)) := by
  refine ⟨?_, ?_, ?_, ?_, ?_⟩
  · cases hg : (getBaudrate env.connectReads (some file.length) cm).2 with
    | error err => simp [upload, hg]
    | ok gb =>
      cases gb with
      | false => simp [upload, hg]
      | true =>
        by_cases hs : (setDownloadBaudrate env.upgradeRead file.length
            115200).2
        · by_cases ht : (transferFile file env.ackReads file.length).2 <;>
            simp [upload, hg, hs, ht]
        · simp [upload, hg, hs]
  · intro hg
    simp [upload, hg]
  · intro hg hs
    simp [upload, hg, hs]
  · intro hg hs ht
    simp [upload, hg, hs, ht]
  · intro hnone
    have hg : (getBaudrate env.connectReads (some file.length) cm).2 =
        .ok false :=
      (auxProbeOrderNone (some file.length) cm baudCandidates
        env.connectReads hnone).2
    simp [upload, hg]

/-- C8, witness: with a device that never answers, negotiation fails and
the whole run is the negotiation events plus the failure message with exit
status 1. -/
theorem orchestration_witness :
    upload deadDevice [] none =
      ((getBaudrate [] (some 0) none).1 ++ [.msg .couldNotFindBaudrate],
        .ok 1) :=
  (orchestration deadDevice [] none).2.2.2.2 (by decide)

/-- C9 (amended): a supplied model argument is validated against the
pattern `NX`, four digits, `T` or `K`, three digits (`NX3224T024` passes;
`nx3224t024`, `NX322T024` and `NX3224X024` fail), and an invalid model
argument makes the program exit with status 1 before any serial read or
write — the whole trace is the opening of the serial device followed by
the error message. (The original claim said the device is never touched
before the check; in fact the device is opened, at 9600 baud with a 5 s
timeout, before the model name is validated, as
`model_arg_gate_cex` shows.) -/
theorem model_arg_gate (argv : List String) (openOk : Bool) (env : DeviceEnv)
    (file : Bytes) (m : String)
    (h4 : argv.length = 4) (hm : argv.getD 3 "" = m)
    (hbad : matchesModel m = false) (hopen : openOk = true) :
    mainFlow argv openOk env file =
      ([.openSerial (argv.getD 2 "") 9600 5, .msg (.invalidModelName m)],
        .ok 1) ∧
    matchesModel "NX3224T024" = true ∧
    matchesModel "nx3224t024" = false ∧
    matchesModel "NX322T024" = false ∧
    matchesModel "NX3224X024" = false := by
  subst hm
  subst hopen
  refine ⟨?_, by decide, by decide, by decide, by decide⟩
  have h3 : 3 < argv.length := by omega
  rw [List.getD_eq_getElem argv "" h3] at hbad
  simp [mainFlow, h4, hbad]

/-- C9, counterexample to the claim as stated: with the invalid model
argument `nx3224t024`, the very first event of the run is the opening and
configuration of the serial device — the device is touched before the
pattern check — even though the run then exits with status 1. -/
theorem model_arg_gate_cex :
    matchesModel "nx3224t024" = false ∧
    (mainFlow ["prog", "screen.tft", "/dev/ttyUSB0", "nx3224t024"] true
      deadDevice []).1.head? = some (.openSerial "/dev/ttyUSB0" 9600 5) ∧
    (mainFlow ["prog", "screen.tft", "/dev/ttyUSB0", "nx3224t024"] true
      deadDevice []).2 = .ok 1 := by
  exact ⟨by decide, by decide, by decide⟩

/-- C9, witness: the amended statement applied to the invalid argument
`nx3224t024`. -/
theorem model_arg_gate_witness :
    mainFlow ["prog", "screen.tft", "/dev/ttyUSB0", "nx3224t024"] true
      deadDevice [] =
      ([.openSerial "/dev/ttyUSB0" 9600 5,
        .msg (.invalidModelName "nx3224t024")], .ok 1) :=
  (model_arg_gate ["prog", "screen.tft", "/dev/ttyUSB0", "nx3224t024"] true
    deadDevice [] "nx3224t024" (by decide) (by decide) (by decide) rfl).1

end Nextion
